import Mathlib

/-
Verification of the date-extraction candidate-evaluation pipeline
(lexnlp/extract/en/dates.py and lexnlp/extract/en/date_validation.py).

The pipeline is shallowly embedded: Python strings are Lean `String`s,
Python lists are Lean `List`s, the external date-parsing collaborator
`DateFinder.parse_date_string` is an oracle function that either returns
an optional date value or raises a (modelled) exception, and the mutation
performed by the pipeline is made explicit by returning updated values
(plus, for the aliasing claim, by an explicit reference/heap model).
All definitions are executable; string helpers are implemented by
structural recursion over character lists so that concrete runs reduce
inside the kernel.
-/

/-! ## Python string primitives

These model the exact `str` operations the source uses: `str.split()`
(whitespace runs, no empty tokens), `" ".join`, `str.replace` (leftmost,
non-overlapping, replace-all), `str.strip`, `str.lower`, `str.isdigit`,
`in` (substring containment) and `str.startswith`. -/

/-- Whitespace characters recognised by Python's `str.split()` / `str.strip()`
(ASCII subset, which is all the pipeline encounters). -/
def isPySpace (c : Char) : Bool :=
  c = ' ' || c = '\t' || c = '\n' || c = '\r' || c = '\x0b' || c = '\x0c'

/-- Helper of `pySplit`: accumulate the current (reversed) token. -/
def pySplitAux : List Char → List Char → List String
  | [], acc => if acc.isEmpty then [] else [String.mk acc.reverse]
  | c :: rest, acc =>
    if isPySpace c then
      if acc.isEmpty then pySplitAux rest []
      else String.mk acc.reverse :: pySplitAux rest []
    else pySplitAux rest (c :: acc)

/-- Python `text.split()` with no separator: split on whitespace runs,
dropping empty tokens. -/
def pySplit (s : String) : List String :=
  pySplitAux s.data []

/-- Python `" ".join(tokens)`. -/
def joinSpace : List String → String
  | [] => ""
  | [s] => s
  | s :: rest => s ++ " " ++ joinSpace rest

/-- Python `"".join(strings)`. -/
def concatAll (l : List String) : String :=
  l.foldl (fun a b => a ++ b) ""

/-- Python `str.lower()` (ASCII, which covers the English tokens used). -/
def pyLower (s : String) : String :=
  String.mk (s.data.map Char.toLower)

/-- Python `str.strip()`. -/
def pyStrip (s : String) : String :=
  String.mk (((s.data.dropWhile isPySpace).reverse.dropWhile isPySpace).reverse)

/-- Helper of `pyReplace`; the fuel argument (initially the length of the
scanned list) makes the recursion structural. -/
def pyReplaceAux (pat : List Char) : Nat → List Char → List Char
  | _, [] => []
  | 0, cs => cs
  | fuel + 1, c :: t =>
    if !pat.isEmpty && pat.isPrefixOf (c :: t) then
      pyReplaceAux pat fuel ((c :: t).drop pat.length)
    else
      c :: pyReplaceAux pat fuel t

/-- Python `text.replace(pat, "")`: remove all leftmost non-overlapping
occurrences of `pat` (with `pat = ""` the text is unchanged, as in Python
when the replacement is also empty). -/
def pyEraseAll (s pat : String) : String :=
  String.mk (pyReplaceAux pat.data s.data.length s.data)

/-- Python `needle in hay` on strings (substring containment). -/
def strContains (hay needle : List Char) : Bool :=
  needle.isPrefixOf hay ||
    (match hay with
     | [] => false
     | _ :: t => strContains t needle)

/-- Python `s.startswith(pre)`. -/
def pyStartsWith (s pre : String) : Bool :=
  pre.data.isPrefixOf s.data

/-- Python `s.isdigit()` (ASCII digits): nonempty and all digits. -/
def pyIsDigit (s : String) : Bool :=
  !s.data.isEmpty && s.data.all Char.isDigit

/-- Numeric value of a list of decimal digit characters (Python `int`). -/
def natOfDigits (cs : List Char) : Nat :=
  cs.foldl (fun acc c => acc * 10 + (c.toNat - '0'.toNat)) 0

/-- Python `sorted(tokens, key=len, reverse=True)`: stable descending sort
by length, realised as a stable insertion sort. -/
def insertByLenDesc (x : String) : List String → List String
  | [] => [x]
  | y :: t => if x.length < y.length then y :: insertByLenDesc x t else x :: y :: t

/-- Stable sort of a token list by descending length. -/
def sortByLenDesc (l : List String) : List String :=
  l.foldr insertByLenDesc []

/-! ## The three regular expressions of `_reject_impossible_formats`

Each is compiled by hand into an equivalent decidable scan over the
character list (`re.match` anchors at the start, `re.search` scans all
start positions; `\s` is `isPySpace`, `\d` an ASCII digit). -/

/-- After at least one whitespace character, skip further whitespace and
require a digit (the `\s+\d` tail of the first regex, with backtracking
resolved: the first non-space character after the run must be a digit). -/
def wsStarThenDigit : List Char → Bool
  | [] => false
  | c :: cs => if c.isDigit then true else if isPySpace c then wsStarThenDigit cs else false

/-- One or more whitespace characters followed by a digit (`\s+\d...`). -/
def wsPlusThenDigit : List Char → Bool
  | [] => false
  | c :: cs => isPySpace c && wsStarThenDigit cs

/-- `re.match(r"\d{1,2}\s+\d{1,2}", text)`: the text starts with one or two
digits, then one or more spaces, then a digit. -/
def matchTwoBareNumbers : List Char → Bool
  | [] => false
  | c1 :: rest =>
    c1.isDigit &&
      (wsPlusThenDigit rest ||
        (match rest with
         | c2 :: rest2 => c2.isDigit && wsPlusThenDigit rest2
         | [] => false))

/-- `re.match(r"\d{2}\.\d{2}\.\d{2,4}", text)`: the text starts with the
shape `dd.dd.dd` (the `{2,4}` needs only two digits for a match to exist). -/
def matchNumericDate : List Char → Bool
  | d1 :: d2 :: p1 :: d3 :: d4 :: p2 :: d5 :: d6 :: _ =>
    d1.isDigit && d2.isDigit && p1 = '.' && d3.isDigit && d4.isDigit &&
      p2 = '.' && d5.isDigit && d6.isDigit
  | _ => false

/-- ASCII letter (`[A-Za-z]`). -/
def isAsciiAlpha (c : Char) : Bool :=
  ('a' ≤ c && c ≤ 'z') || ('A' ≤ c && c ≤ 'Z')

/-- `\s*[A-Za-z]` at this position: after zero or more whitespace
characters the next character is an ASCII letter. -/
def spacesThenAlpha (cs : List Char) : Bool :=
  match cs.dropWhile isPySpace with
  | c :: _ => isAsciiAlpha c
  | [] => false

/-- `re.search(r"\d{2,4}\.\s*[A-Za-z]", text)`: somewhere in the text two
digits are followed by a dot, optional whitespace and a letter (a match
with three or four digits contains this two-digit match). -/
def searchNumberDotWord : List Char → Bool
  | d1 :: d2 :: '.' :: tail =>
    (d1.isDigit && d2.isDigit && spacesThenAlpha tail) ||
      searchNumberDotWord (d2 :: '.' :: tail)
  | _ :: rest => searchNumberDotWord rest
  | [] => false

/-! ## Month lookup (`EN_MONTHS` / `MONTH_BY_NAME` in dates.py) -/

/-- The `EN_MONTHS` table of dates.py. -/
def EN_MONTHS : List (List String) :=
  [["january", "jan"], ["february", "feb", "febr"], ["march", "mar"],
   ["april", "apr"], ["may"], ["june", "jun"],
   ["july", "jul"], ["august", "aug"], ["september", "sep", "sept"],
   ["october", "oct"], ["november", "nov"], ["december", "dec"]]

/-- `MONTH_BY_NAME`: lowercased month name to its 1-based month number
(`{month_name: ix + 1 for ix, month_names in enumerate(EN_MONTHS) ...}`). -/
def monthByName (name : String) : Option Nat :=
  EN_MONTHS.enum.findSome? fun p =>
    if name ∈ p.2 then some (p.1 + 1) else none

/-! ## Data model (dates.py `CandidateDate` / `CandidateOutcome`)

The `props` dictionary produced by the tokenizer always carries the six
keys the pipeline reads (`digits`, `months`, `digits_modifier`, `days`,
`delimiters`, `extra_tokens`); it is modelled as a record of the six
lists, with the dict's `.get(key, [])` defaults totalized by the record
fields.  (The separate reference/heap model below covers object identity
for the aliasing claim.) -/

/-- The per-candidate token properties dictionary. -/
structure TokenProps where
  digits : List String
  months : List String
  digits_modifier : List String
  days : List String
  delimiters : List String
  extra_tokens : List String
deriving DecidableEq

/-- A parsed calendar value returned by the external collaborator: either a
plain `datetime.date` or a `datetime.datetime`.  For a `datetime`, `isoOk`
records whether `date.isoformat()` succeeds (it can raise `ValueError`
only for a broken `tzinfo` attached by the external parser, behaviour
outside this repository). -/
inductive PyDate where
  | date (year month day : Nat)
  | datetime (year month day hour minute : Nat) (isoOk : Bool)
deriving DecidableEq

/-- The `month` attribute of a parsed value. -/
def pyMonth : PyDate → Nat
  | .date _ m _ => m
  | .datetime _ m _ _ _ _ => m

/-- A Python exception raised by the collaborator (every exception class
the collaborator can raise derives from `Exception`; `TypeError` is the
one the source singles out). -/
inductive PyErr where
  | typeError
  | otherError
deriving DecidableEq

/-- `CandidateDate` of dates.py.  The `date_finder` / `locale` fields are
the handles through which the collaborator is reached; the collaborator
itself is passed explicitly to the functions that use it.
`normalized_text` is initialised to `raw_text` by `__post_init__`
(see `mkCandidateDate`). -/
structure CandidateDate where
  raw_text : String
  span : Nat × Nat
  props : TokenProps
  index : Nat
  normalized_text : String
deriving DecidableEq

/-- Construction of a `CandidateDate` (`__post_init__` sets
`normalized_text = raw_text`). -/
def mkCandidateDate (rawText : String) (span : Nat × Nat)
    (props : TokenProps) (index : Nat) : CandidateDate :=
  { raw_text := rawText, span := span, props := props, index := index,
    normalized_text := rawText }

/-- `CandidateOutcome` of dates.py. -/
structure CandidateOutcome where
  candidate : CandidateDate
  accepted : Bool
  date : Option PyDate := none
  reason : Option String := none
deriving DecidableEq

/-! ## Semantic validator (date_validation.py) -/

/-- `_ordinal_to_cardinal`: keep the digit characters of the token and
read them as an integer; `None` when no digit occurs. -/
def ordinalToCardinal (value : String) : Option Nat :=
  let digits := value.data.filter Char.isDigit
  if digits.isEmpty then none else some (natOfDigits digits)

/-- `digit_values` of `_collect_candidate_values`:
`[int(d) for d in digits if d.isdigit()]`. -/
def candDigitValues (props : TokenProps) : List Nat :=
  props.digits.filterMap fun d =>
    if pyIsDigit d then some (natOfDigits d.data) else none

/-- `month_values` of `_collect_candidate_values`: month tokens mapped
through the lookup, keeping only truthy results. -/
def candMonthValues (props : TokenProps) (monthLookup : String → Option Nat) : List Nat :=
  props.months.filterMap fun m =>
    match monthLookup (pyLower m) with
    | some v => if v ≠ 0 then some v else none
    | none => none

/-- `modifier_values` of `_collect_candidate_values`: ordinal modifiers
reduced to cardinals, keeping only truthy results. -/
def candModifierValues (props : TokenProps) : List Nat :=
  props.digits_modifier.filterMap fun m =>
    match ordinalToCardinal m with
    | some v => if v ≠ 0 then some v else none
    | none => none

/-- The `combined` list of `check_date_parts_are_in_date`. -/
def combinedValues (props : TokenProps) (monthLookup : String → Option Nat) : List Nat :=
  candDigitValues props ++ candMonthValues props monthLookup ++ candModifierValues props

/-- `date_values` of `check_date_parts_are_in_date`: the populated fields
among year/month/day/hour/minute in that order (`hour`/`minute` exist only
on a `datetime`). -/
def dateValues : PyDate → List (String × Nat)
  | .date y m d => [("year", y), ("month", m), ("day", d)]
  | .datetime y m d h mi _ =>
      [("year", y), ("month", m), ("day", d), ("hour", h), ("minute", mi)]

/-- The per-unit matching step of `check_date_parts_are_in_date`'s loop:
returns the value recorded in `removeable` when the unit's value matches
the expected values (`year` may match through its two-digit short form
when above 1000), `none` when the unit stays unmatched. -/
def unitMatch (combined : List Nat) (unit : String) (value : Nat) : Option Nat :=
  if unit = "year" then
    let shortYear := if value > 1000 then value % 100 else value
    if shortYear ∈ combined then some shortYear
    else if value ∈ combined then some value
    else none
  else if value ∈ combined then some value
  else none

/-- `check_date_parts_are_in_date` of date_validation.py. -/
def checkDatePartsAreInDate (date : PyDate) (props : TokenProps)
    (monthLookup : String → Option Nat) : Bool :=
  let dvs := dateValues date
  let cMonths := candMonthValues props monthLookup
  let combined := combinedValues props monthLookup
  let monthVal := (dvs.lookup "month").getD 0
  if ¬cMonths.isEmpty ∧ monthVal ≠ 0 ∧ monthVal ∉ cMonths then false
  else
    let removeable := dvs.filterMap fun uv => unitMatch combined uv.1 uv.2
    let diffDigits := combined.filter fun v =>
      decide (v ∉ dvs.map Prod.snd) && decide (v ∉ removeable)
    let coreUnmatched := dvs.any fun uv =>
      decide (unitMatch combined uv.1 uv.2 = none) &&
        decide (uv.1 ∈ (["year", "month", "day"] : List String))
    if coreUnmatched ∧ ¬diffDigits.isEmpty then false else true

/-! ## Context normalizer (`_normalize_day_of`)

The Python function mutates the previous candidate's `digits_modifier`
in place; the embedding returns the (possibly updated) previous candidate
alongside the current one. -/

/-- The modifier-token normalisation used by `_normalize_day_of`:
`.replace("st","").replace("nd","").replace("rd","").replace("th","")`. -/
def stripOrdinalSuffix (modifierToken : String) : String :=
  pyEraseAll (pyEraseAll (pyEraseAll (pyEraseAll modifierToken "st") "nd") "rd") "th"

/-- The guard of `_normalize_day_of`: an "of" extra token, an existing
previous candidate and outcome, a rejected previous outcome, and exactly
one modifier token on the previous candidate.  (The source's `if not
props` and `if not extra_tokens` early returns are subsumed: with no
extra tokens there is no "of" token.) -/
def dayOfRuleFires (c : CandidateDate) (prevC : Option CandidateDate)
    (prevO : Option CandidateOutcome) : Bool :=
  (c.props.extra_tokens.any fun tok => pyLower tok = "of") &&
    (match prevC, prevO with
     | some p, some o => !o.accepted && p.props.digits_modifier.length = 1
     | _, _ => false)

/-- `_normalize_day_of` of dates.py, with the in-place mutation of the
previous candidate returned explicitly as the second component. -/
def normalizeDayOf (candidate : CandidateDate) (previousCandidate : Option CandidateDate)
    (previousOutcome : Option CandidateOutcome) : CandidateDate × Option CandidateDate :=
  let extraTokens := candidate.props.extra_tokens
  if extraTokens.isEmpty then (candidate, previousCandidate)
  else
    let hasOfToken := extraTokens.any fun tok => pyLower tok = "of"
    if !hasOfToken then (candidate, previousCandidate)
    else
      match previousCandidate, previousOutcome with
      | some prev, some prevOut =>
        if prevOut.accepted then (candidate, previousCandidate)
        else
          let previousModifiers := prev.props.digits_modifier
          if previousModifiers.length ≠ 1 then (candidate, previousCandidate)
          else
            let modifierToken := previousModifiers.getLastD ""
            let normalizedModifier := stripOrdinalSuffix modifierToken
            let candidate' := { candidate with
              props := { candidate.props with
                digits_modifier := previousModifiers ++ candidate.props.digits_modifier },
              normalized_text := normalizedModifier ++ candidate.normalized_text }
            let prev' := { prev with
              props := { prev.props with digits_modifier := previousModifiers.dropLast } }
            (candidate', some prev')
      | _, _ => (candidate, previousCandidate)

/-! ## Heuristic rejection engine (`_reject_impossible_formats`,
`_normalize_tokens`, `_reject_post_normalization`) -/

/-- `DATE_MAX_LENGTH` of dates.py. -/
def DATE_MAX_LENGTH : Nat := 40

/-- `_reject_impossible_formats` of dates.py: the ordered, first-match-wins
rule chain. -/
def rejectImpossibleFormats (candidate : CandidateDate) : Option String :=
  let props := candidate.props
  let text := candidate.normalized_text
  let numMonth := props.months.length
  let numDigitsModifier := props.digits_modifier.length
  let numDigits := props.digits.length
  let numDays := props.days.length
  let numSlash := props.delimiters.count "/"
  let numPoint := props.delimiters.count "."
  let numHyphen := props.delimiters.count "-"
  if 1 < numMonth then some "multiple_month_tokens"
  else if numMonth = 1 ∧ ¬props.extra_tokens.isEmpty ∧
      strContains text.data (props.months.headD "" ++ props.extra_tokens.getLastD "").data then
    some "month_followed_by_word"
  else if 0 < numDigitsModifier ∧ numDigits = 0 then some "modifier_without_digits"
  else if 0 < numDays ∧ numDigits = 0 then some "day_without_digits"
  else if numMonth = 0 ∧ numDigitsModifier = 0 ∧ numDigits ≤ 1 then
    some "insufficient_components"
  else if matchTwoBareNumbers text.data then some "ambiguous_double_numbers"
  else if numPoint ≠ 0 ∧ numMonth = 0 ∧ ¬matchNumericDate text.data then
    some "decimal_without_month"
  else if searchNumberDotWord text.data then some "number_dot_word"
  else if (numSlash = 1 ∨ numHyphen = 1) ∧ 2 < numDigits then some "fraction_like_number"
  else if (props.digits.any fun d => d.length = 3) ∨ (props.digits.any fun d => pyStartsWith d "00") then
    some "invalid_digit_length"
  else if numDigits = 0 ∧ numDays = 0 ∧ pyLower (concatAll props.months) = "may" then
    some "standalone_may"
  else if 0 < numDigits ∧ 0 < numPoint + numSlash + numHyphen ∧
      pyLower (concatAll props.months) = "may" then
    some "punctuated_may"
  else none

/-- `_normalize_tokens` of dates.py: strip every extra token (longest
first) from the normalized text except "to"/"t", trim whitespace, and
clear `extra_tokens`. -/
def normalizeTokens (candidate : CandidateDate) : CandidateDate :=
  let sortedExtra := sortByLenDesc candidate.props.extra_tokens
  let text := sortedExtra.foldl
    (fun t tok => if pyLower tok = "to" ∨ pyLower tok = "t" then t else pyEraseAll t tok)
    candidate.normalized_text
  { candidate with
    normalized_text := pyStrip text,
    props := { candidate.props with extra_tokens := [] } }

/-- `_reject_post_normalization` of dates.py. -/
def rejectPostNormalization (candidate : CandidateDate) : Option String :=
  let text := candidate.normalized_text
  if DATE_MAX_LENGTH < text.length then some "exceeds_max_length"
  else
    let onlyBadDelims := (concatAll candidate.props.delimiters).data.all
      fun ch => [',', ' ', '\n', '\t'].contains ch
    if onlyBadDelims ∧ candidate.props.months.length = 0 then some "digits_without_month"
    else none

/-! ## Windowed parser (`_parse_candidate`)

The external collaborator `date_finder.parse_date_string` is an oracle
`String → Except PyErr (Option PyDate)`: `Except.error` models a raised
exception, `Except.ok none` a falsy (`None`) return.  The inner
`except Exception` of the source absorbs every collaborator exception
(including `TypeError`, a subclass of `Exception`); consequently the
outer `except TypeError` handler of `_parse_candidate` can never be
reached from a collaborator exception — the remaining statements of the
`try` body (`split`, `join`) cannot raise — so the embedding of the
`try` body is a total function and no `type_error` outcome is
constructed. -/

/-- One collaborator attempt under the inner
`try: ... except Exception: date = None` handler. -/
def tryParseDateString (parse : String → Except PyErr (Option PyDate))
    (s : String) : Option PyDate :=
  match parse s with
  | .error _ => none
  | .ok d => d

/-- The working string for a given cutter/direction pair: for `cutter = 0`
the untrimmed text, otherwise drop the first `cutter` tokens
(`direction = 1`) or the last `cutter` tokens (`direction = 0`). -/
def workingStringFor (base : String) (toks : List String)
    (cutter direction : Nat) : String :=
  if 0 < cutter then
    if direction ≠ 0 then joinSpace (toks.drop cutter)
    else joinSpace (toks.take (toks.length - cutter))
  else base

/-- The nested cutter/direction loop of `_parse_candidate` with its
`break`s: the first truthy parse in row-major order. -/
def windowedParse (parse : String → Except PyErr (Option PyDate))
    (base : String) : Option PyDate :=
  let toks := pySplit base
  (List.range toks.length).findSome? fun cutter =>
    ([0, 1] : List Nat).findSome? fun direction =>
      tryParseDateString parse (workingStringFor base toks cutter direction)

/-- The working strings the loop would generate, in scan order. -/
def attemptStrings (base : String) : List String :=
  let toks := pySplit base
  (List.range toks.length).flatMap fun cutter =>
    ([0, 1] : List Nat).map fun direction => workingStringFor base toks cutter direction

/-- Helper of `callTrace`: the prefix of the attempts actually sent to the
collaborator (the scan stops after the first truthy parse). -/
def traceAux (parse : String → Except PyErr (Option PyDate)) :
    List String → List String
  | [] => []
  | s :: rest =>
    match tryParseDateString parse s with
    | some _ => [s]
    | none => s :: traceAux parse rest

/-- The sequence of strings passed to the collaborator by the windowed
parser, in order of invocation. -/
def callTrace (parse : String → Except PyErr (Option PyDate))
    (base : String) : List String :=
  traceAux parse (attemptStrings base)

/-- `_parse_candidate` of dates.py (after the windowed parse: validation,
the `isoformat` timezone guard, and the midnight `datetime`-to-`date`
conversion). -/
def parseCandidate (parse : String → Except PyErr (Option PyDate))
    (candidate : CandidateDate) : CandidateOutcome :=
  match windowedParse parse candidate.normalized_text with
  | none => { candidate := candidate, accepted := false, reason := some "parse_failure" }
  | some date =>
    if ¬checkDatePartsAreInDate date candidate.props monthByName then
      { candidate := candidate, accepted := false, reason := some "date_parts_mismatch" }
    else
      match date with
      | .datetime y mo d h mi isoOk =>
        if ¬isoOk then
          { candidate := candidate, accepted := false, reason := some "invalid_timezone" }
        else if h = 0 ∧ mi = 0 then
          { candidate := candidate, accepted := true, date := some (.date y mo d) }
        else
          { candidate := candidate, accepted := true, date := some (.datetime y mo d h mi isoOk) }
      | .date y mo d =>
        { candidate := candidate, accepted := true, date := some (.date y mo d) }

/-! ## The per-candidate pipeline (`_iter_candidate_evaluations`) -/

/-- One iteration of `_iter_candidate_evaluations`' loop: context
normalisation, pre-cleanup rejection, token cleanup, post-cleanup
rejection, then the windowed parse.  Returns the final candidate object
(which becomes the next iteration's previous candidate) with its
outcome. -/
def evaluateCandidate (parse : String → Except PyErr (Option PyDate))
    (candidate0 : CandidateDate) (prev : Option CandidateDate)
    (prevOut : Option CandidateOutcome) : CandidateDate × CandidateOutcome :=
  let normalized := normalizeDayOf candidate0 prev prevOut
  let candidate1 := normalized.1
  match rejectImpossibleFormats candidate1 with
  | some reason =>
    (candidate1, { candidate := candidate1, accepted := false, reason := some reason })
  | none =>
    let candidate2 := normalizeTokens candidate1
    match rejectPostNormalization candidate2 with
    | some reason =>
      (candidate2, { candidate := candidate2, accepted := false, reason := some reason })
    | none => (candidate2, parseCandidate parse candidate2)

/-- The loop of `_iter_candidate_evaluations`, threading the index and the
previous candidate/outcome slot. -/
def iterCandidateEvaluationsAux (parse : String → Except PyErr (Option PyDate)) :
    List (String × (Nat × Nat) × TokenProps) → Nat → Option CandidateDate →
      Option CandidateOutcome → List CandidateOutcome
  | [], _, _, _ => []
  | (rawText, span, props) :: rest, index, prev, prevOut =>
    let step := evaluateCandidate parse (mkCandidateDate rawText span props index) prev prevOut
    step.2 :: iterCandidateEvaluationsAux parse rest (index + 1) (some step.1) (some step.2)

/-- `_iter_candidate_evaluations` of dates.py over the tokenizer's
possible-date triples (the by-value `_copy_date_props` copy is the
identity in this value-level model; object identity is treated in the
reference model below). -/
def iterCandidateEvaluations (parse : String → Except PyErr (Option PyDate))
    (possibleDates : List (String × (Nat × Nat) × TokenProps)) : List CandidateOutcome :=
  iterCandidateEvaluationsAux parse possibleDates 0 none none

/-! ## Annotations (`get_date_annotations`)

The feature extraction plus classifier probability is an oracle
`scoreFn : String → Nat → Nat → ℚ` of the text and the candidate span
(the classifier's float probability is modelled as a rational). -/

/-- `DateAnnotation` as used by `get_date_annotations`. -/
structure DateAnnot where
  coords : Nat × Nat
  text : String
  date : PyDate
  score : ℚ
deriving DecidableEq

/-- Python `text[start:end]` for natural indices. -/
def pySlice (text : String) (start stop : Nat) : String :=
  String.mk ((text.data.drop start).take (stop - start))

/-- `get_date_annotations` of dates.py: accepted outcomes with a present
date, scored, kept iff the score clears the threshold. -/
def getDateAnns (parse : String → Except PyErr (Option PyDate))
    (scoreFn : String → Nat → Nat → ℚ) (text : String)
    (possibleDates : List (String × (Nat × Nat) × TokenProps))
    (threshold : ℚ) : List DateAnnot :=
  (iterCandidateEvaluations parse possibleDates).filterMap fun outcome =>
    match outcome.accepted, outcome.date with
    | true, some d =>
      let start := outcome.candidate.span.1
      let stop := outcome.candidate.span.2
      let score := scoreFn text start stop
      if threshold ≤ score then
        some { coords := (start, stop), text := pySlice text start stop,
               date := d, score := score }
      else none
    | _, _ => none

/-! ## Reference model of `_copy_date_props` and the pipeline's mutation

To state the aliasing claim (the pipeline never mutates the tokenizer's
structures) the Python object graph is made explicit: list objects and
dict objects live in two heaps addressed by naturals, with a single
allocation counter (`fresh`); every ref below `fresh` is allocated.
`_copy_date_props` allocates a fresh dict whose top-level list values are
fresh copies (tuples become fresh lists); the pipeline's dict-entry
assignments (`props["digits_modifier"] = ...`, `props["extra_tokens"] =
[]`) write fresh list objects into the candidate's own dict.  The
read-only stages reuse the value-level functions on materialised
properties. -/

/-- A top-level value of the tokenizer's props dict: a mutable list object
(by reference), an immutable tuple (by value), or some other immutable
scalar. -/
inductive PropVal where
  | listRef (r : Nat)
  | tup (xs : List String)
  | scalar (s : String)
deriving DecidableEq

/-- A Python dict object's contents: insertion-ordered key/value pairs. -/
abbrev PropsDict := List (String × PropVal)

/-- The object store: the list heap, the dict heap, and the allocation
counter. -/
structure Store where
  listHeap : Nat → List String
  dictHeap : Nat → PropsDict
  fresh : Nat

/-- Allocate a fresh list object. -/
def allocList (st : Store) (xs : List String) : Nat × Store :=
  (st.fresh,
   { st with
     listHeap := fun r => if r = st.fresh then xs else st.listHeap r,
     fresh := st.fresh + 1 })

/-- Allocate a fresh dict object. -/
def allocDict (st : Store) (d : PropsDict) : Nat × Store :=
  (st.fresh,
   { st with
     dictHeap := fun r => if r = st.fresh then d else st.dictHeap r,
     fresh := st.fresh + 1 })

/-- Assignment `d[key] = v` on a dict's contents: update in place when the
key exists (keeping its position), append otherwise. -/
def dictSet : PropsDict → String → PropVal → PropsDict
  | [], key, v => [(key, v)]
  | (k, w) :: rest, key, v =>
    if k = key then (k, v) :: rest else (k, w) :: dictSet rest key v

/-- Copy one value as `_copy_date_props` does: `value.copy()` for a list,
`list(value)` for a tuple (both allocate a fresh list), anything else is
kept as-is. -/
def copyVal (st : Store) (v : PropVal) : PropVal × Store :=
  match v with
  | .listRef r =>
    let a := allocList st (st.listHeap r)
    (.listRef a.1, a.2)
  | .tup xs =>
    let a := allocList st xs
    (.listRef a.1, a.2)
  | .scalar s => (.scalar s, st)

/-- The loop of `_copy_date_props` over the source dict's items, in
order. -/
def copyEntries (st : Store) : PropsDict → PropsDict × Store
  | [] => ([], st)
  | (k, v) :: rest =>
    let cv := copyVal st v
    let cr := copyEntries cv.2 rest
    ((k, cv.1) :: cr.1, cr.2)

/-- `_copy_date_props` of dates.py in the reference model: a fresh dict
whose list/tuple values are fresh list objects with the same contents. -/
def copyDatePropsH (st : Store) (srcRef : Nat) : Nat × Store :=
  let ce := copyEntries st (st.dictHeap srcRef)
  allocDict ce.2 ce.1

/-- `props.get(key, [])` in the reference model, materialising the list
contents. -/
def getPropList (st : Store) (dictRef : Nat) (key : String) : List String :=
  match (st.dictHeap dictRef).lookup key with
  | some (.listRef r) => st.listHeap r
  | some (.tup xs) => xs
  | _ => []

/-- `props[key] = xs` in the reference model: allocate the fresh list
object and assign it into the dict. -/
def setPropList (st : Store) (dictRef : Nat) (key : String) (xs : List String) : Store :=
  let a := allocList st xs
  { a.2 with
    dictHeap := fun q =>
      if q = dictRef then dictSet (a.2.dictHeap dictRef) key (.listRef a.1)
      else a.2.dictHeap q }

/-- A candidate in the reference model: its props dict is held by
reference. -/
structure HCandidate where
  raw_text : String
  span : Nat × Nat
  propsRef : Nat
  index : Nat
  normalized_text : String

/-- Materialise the six token-property lists of a candidate's dict. -/
def readProps (st : Store) (dictRef : Nat) : TokenProps :=
  { digits := getPropList st dictRef "digits",
    months := getPropList st dictRef "months",
    digits_modifier := getPropList st dictRef "digits_modifier",
    days := getPropList st dictRef "days",
    delimiters := getPropList st dictRef "delimiters",
    extra_tokens := getPropList st dictRef "extra_tokens" }

/-- The value-level view of a reference-model candidate. -/
def materialize (st : Store) (c : HCandidate) : CandidateDate :=
  { raw_text := c.raw_text, span := c.span, props := readProps st c.propsRef,
    index := c.index, normalized_text := c.normalized_text }

/-- `_normalize_day_of` in the reference model: on firing, assign the
merged modifier list into the current candidate's dict and the shortened
list into the previous candidate's dict (the source's two in-place dict
assignments, in order). -/
def hNormalizeDayOf (st : Store) (c : HCandidate) (prev : Option HCandidate)
    (prevAccepted : Option Bool) : Store × HCandidate :=
  let extraTokens := getPropList st c.propsRef "extra_tokens"
  if extraTokens.isEmpty then (st, c)
  else if !(extraTokens.any fun tok => pyLower tok = "of") then (st, c)
  else
    match prev, prevAccepted with
    | some p, some acc =>
      if acc then (st, c)
      else
        let previousModifiers := getPropList st p.propsRef "digits_modifier"
        if previousModifiers.length ≠ 1 then (st, c)
        else
          let modifierToken := previousModifiers.getLastD ""
          let curMods := getPropList st c.propsRef "digits_modifier"
          let st1 := setPropList st c.propsRef "digits_modifier" (previousModifiers ++ curMods)
          let st2 := setPropList st1 p.propsRef "digits_modifier" previousModifiers.dropLast
          (st2, { c with normalized_text := stripOrdinalSuffix modifierToken ++ c.normalized_text })
    | _, _ => (st, c)

/-- `_normalize_tokens` in the reference model: compute the cleaned text,
then assign the fresh empty list into the candidate's dict. -/
def hNormalizeTokens (st : Store) (c : HCandidate) : Store × HCandidate :=
  let sortedExtra := sortByLenDesc (getPropList st c.propsRef "extra_tokens")
  let text := sortedExtra.foldl
    (fun t tok => if pyLower tok = "to" ∨ pyLower tok = "t" then t else pyEraseAll t tok)
    c.normalized_text
  let st1 := setPropList st c.propsRef "extra_tokens" []
  (st1, { c with normalized_text := pyStrip text })

/-- One pipeline iteration in the reference model; the rejection checks
and the windowed parse only read the candidate's materialised
properties. -/
def hEvaluateCandidate (parse : String → Except PyErr (Option PyDate))
    (st : Store) (c0 : HCandidate) (prev : Option HCandidate)
    (prevAccepted : Option Bool) : Store × HCandidate × CandidateOutcome :=
  let n := hNormalizeDayOf st c0 prev prevAccepted
  let st1 := n.1
  let c1 := n.2
  match rejectImpossibleFormats (materialize st1 c1) with
  | some reason =>
    (st1, c1, { candidate := materialize st1 c1, accepted := false, reason := some reason })
  | none =>
    let m := hNormalizeTokens st1 c1
    let st2 := m.1
    let c2 := m.2
    match rejectPostNormalization (materialize st2 c2) with
    | some reason =>
      (st2, c2, { candidate := materialize st2 c2, accepted := false, reason := some reason })
    | none => (st2, c2, parseCandidate parse (materialize st2 c2))

/-- The pipeline loop in the reference model: copy the tokenizer's props
dict, evaluate, thread the previous-candidate slot, and return the final
store. -/
def hPipelineAux (parse : String → Except PyErr (Option PyDate)) :
    List (String × (Nat × Nat) × Nat) → Nat → Store → Option HCandidate →
      Option Bool → Store
  | [], _, st, _, _ => st
  | (rawText, span, srcRef) :: rest, index, st, prev, prevAcc =>
    let cp := copyDatePropsH st srcRef
    let c0 : HCandidate :=
      { raw_text := rawText, span := span, propsRef := cp.1, index := index,
        normalized_text := rawText }
    let ev := hEvaluateCandidate parse cp.2 c0 prev prevAcc
    hPipelineAux parse rest (index + 1) ev.1 (some ev.2.1) (some ev.2.2.accepted)

/-- `_iter_candidate_evaluations` in the reference model, returning the
final object store (the tokenizer's triples carry dict references). -/
def hPipeline (parse : String → Except PyErr (Option PyDate))
    (possibleDates : List (String × (Nat × Nat) × Nat)) (st : Store) : Store :=
  hPipelineAux parse possibleDates 0 st none none

/-- A value's list reference (if any) is below the allocation bound. -/
def valRefBelow (v : PropVal) (n : Nat) : Bool :=
  match v with
  | .listRef r => decide (r < n)
  | _ => true

/-- Every top-level list reference of the dict at `srcRef` is allocated. -/
def validDictRef (st : Store) (srcRef : Nat) : Bool :=
  (st.dictHeap srcRef).all fun kv => valRefBelow kv.2 st.fresh

/-- The list contents a dict-lookup result denotes (the read performed by
`props.get(key, [])`), parameterised by the store's list heap. -/
def matVal (st : Store) : Option PropVal → List String
  | some (.listRef r) => st.listHeap r
  | some (.tup xs) => xs
  | _ => []

/-- Both heaps agree below the bound `n0`: nothing allocated before the
pipeline started has been written. -/
def Preserves (n0 : Nat) (st0 st1 : Store) : Prop :=
  (∀ r, r < n0 → st1.listHeap r = st0.listHeap r) ∧
    (∀ r, r < n0 → st1.dictHeap r = st0.dictHeap r)

/-- A pipeline step's frame condition: the heaps below `n0` are untouched
and the allocation counter does not decrease. -/
def StepFrame (n0 : Nat) (st0 st1 : Store) : Prop :=
  Preserves n0 st0 st1 ∧ st0.fresh ≤ st1.fresh

/-! ## Claim-side reformulation of the validator's decision

The components of the acceptance decision of `check_date_parts_are_in_date`,
stated the way the specification phrases them (used to relate the code's
early-return chain to the spec's "rejected exactly when" form). -/

/-- Month mismatch: month values were extracted and the parsed month is
not among them. -/
def claimMonthMismatch (date : PyDate) (props : TokenProps)
    (monthLookup : String → Option Nat) : Prop :=
  candMonthValues props monthLookup ≠ [] ∧ pyMonth date ∉ candMonthValues props monthLookup

/-- Some populated field among year/month/day stays unmatched against the
expected values. -/
def claimCoreUnmatched (date : PyDate) (props : TokenProps)
    (monthLookup : String → Option Nat) : Prop :=
  ∃ uv ∈ dateValues date, uv.1 ∈ (["year", "month", "day"] : List String) ∧
    unitMatch (combinedValues props monthLookup) uv.1 uv.2 = none

/-- The expected-value set still contains a numeric leftover: some expected
value equals no populated field's value and was not consumed as a matched
(possibly short-form) value. -/
def claimLeftovers (date : PyDate) (props : TokenProps)
    (monthLookup : String → Option Nat) : Prop :=
  ∃ v ∈ combinedValues props monthLookup,
    v ∉ (dateValues date).map Prod.snd ∧
    v ∉ (dateValues date).filterMap
      (fun uv => unitMatch (combinedValues props monthLookup) uv.1 uv.2)

/-! ## Concrete fixtures used by witnesses and counterexamples -/

/-- Empty token properties. -/
def emptyProps : TokenProps :=
  { digits := [], months := [], digits_modifier := [], days := [],
    delimiters := [], extra_tokens := [] }

/-- Token properties of the spec's `June 1, 2017` validator example. -/
def juneProps : TokenProps :=
  { emptyProps with digits := ["1", "2017"], months := ["June"], delimiters := [",", " "] }

/-- The same with the month token replaced by `July`. -/
def julyProps : TokenProps :=
  { juneProps with months := ["July"] }

/-- A candidate with two month tokens. -/
def multiMonthCand : CandidateDate :=
  mkCandidateDate "Jan Feb" (0, 7) { emptyProps with months := ["Jan", "Feb"] } 0

/-- A fraction-shaped candidate: one `/` delimiter, three numeral tokens. -/
def fractionCand : CandidateDate :=
  mkCandidateDate "12/13/14" (0, 8)
    { emptyProps with digits := ["12", "13", "14"], delimiters := ["/"] } 0

/-- Previous candidate fixture for the day-of rule: sole modifier token
`1st`. -/
def prevOfCand : CandidateDate :=
  mkCandidateDate "the 1st" (0, 7)
    { emptyProps with digits_modifier := ["1st"], extra_tokens := ["the"] } 0

/-- Rejected outcome of the previous candidate fixture. -/
def prevOfOutcome : CandidateOutcome :=
  { candidate := prevOfCand, accepted := false, reason := some "insufficient_components" }

/-- Current candidate fixture for the day-of rule: carries an "of" extra
token. -/
def curOfProps : TokenProps :=
  { emptyProps with
    digits := ["2017"], months := ["June"], delimiters := [" "], extra_tokens := ["of"] }

/-- The day-of fixture as a candidate. -/
def curOfCand : CandidateDate :=
  mkCandidateDate "of June 2017" (8, 20) curOfProps 1

/-- A collaborator that raises `TypeError` on every call. -/
def parseAlwaysTypeError : String → Except PyErr (Option PyDate) :=
  fun _ => .error .typeError

/-- A collaborator that returns `None` on every call. -/
def parseNoneAlways : String → Except PyErr (Option PyDate) :=
  fun _ => .ok none

/-- A collaborator that parses exactly the June example at midnight. -/
def parseJune : String → Except PyErr (Option PyDate) :=
  fun s => if s = "June 1, 2017" then .ok (some (.datetime 2017 6 1 0 0 true)) else .ok none

/-- Two-token candidate used against the typeError collaborator. -/
def twoTokenCand : CandidateDate :=
  mkCandidateDate "x y" (0, 3) emptyProps 0

/-- The June candidate as it reaches the pipeline. -/
def juneCand : CandidateDate :=
  mkCandidateDate "June 1, 2017" (0, 12) juneProps 0

/-- The June candidate as a tokenizer triple. -/
def junePossible : List (String × (Nat × Nat) × TokenProps) :=
  [("June 1, 2017", (0, 12), juneProps)]

/-- A scorer assigning probability 1 to every span. -/
def scoreOne : String → Nat → Nat → ℚ :=
  fun _ _ _ => 1

/-- The annotation the June fixture produces. -/
def juneAnnot : DateAnnot :=
  { coords := (0, 12), text := "June 1, 2017", date := .date 2017 6 1, score := 1 }

/-- A tokenizer triple whose candidate is rejected for insufficient
components. -/
def emptyPossible : List (String × (Nat × Nat) × TokenProps) :=
  [("", (0, 0), emptyProps)]

/-- The outcome the empty fixture produces. -/
def emptyOutcome : CandidateOutcome :=
  { candidate := mkCandidateDate "" (0, 0) emptyProps 0, accepted := false,
    reason := some "insufficient_components" }

/-- An initial store holding one tokenizer dict (ref 0) that owns one list
object (ref 0). -/
def heapStore0 : Store :=
  { listHeap := fun _ => ["1st"],
    dictHeap := fun _ => [("digits_modifier", .listRef 0), ("extra_tokens", .tup ["of"])],
    fresh := 1 }

/-- A tokenizer triple in the reference model pointing at dict 0. -/
def heapPds : List (String × (Nat × Nat) × Nat) :=
  [("of June", (0, 7), 0)]

/-- The scan order stated by the (amended) windowed-parser claim: for each
cutter in ascending order, at cutter 0 the untrimmed text (twice, the
second attempt reached only when the first yields no parse), afterwards
the drop-last-cutter-tokens variant before the drop-first-cutter-tokens
variant. -/
def claimScanOrderAmended (base : String) : List String :=
  let toks := pySplit base
  (List.range toks.length).flatMap fun cutter =>
    if cutter = 0 then [base, base]
    else [joinSpace (toks.take (toks.length - cutter)), joinSpace (toks.drop cutter)]

/-- The invariant every pipeline outcome is claimed to satisfy: accepted
outcomes carry a date, rejected outcomes carry a reason. -/
def outcomeInv (o : CandidateOutcome) : Prop :=
  (o.accepted = true → o.date.isSome = true) ∧ (o.accepted = false → o.reason.isSome = true)

/-! ## Theorems -/

/-- C5: For every candidate whose token properties contain more than one
month token, `_reject_impossible_formats` returns `multiple_month_tokens`,
regardless of any other token properties or text shape (it is the first
check of the first-match-wins chain). -/
theorem c5_multiple_month_tokens (c : CandidateDate)
    (h : 1 < c.props.months.length) :
    rejectImpossibleFormats c = some "multiple_month_tokens" := by
  unfold rejectImpossibleFormats
  simp only [if_pos h]

/-- Witness for C5 at a concrete two-month candidate. -/
theorem c5_multiple_month_tokens_witness :
    1 < multiMonthCand.props.months.length ∧
      rejectImpossibleFormats multiMonthCand = some "multiple_month_tokens" :=
  ⟨by decide, c5_multiple_month_tokens multiMonthCand (by decide)⟩

/-- C4: the day-of context-normalisation rule: when the candidate has an
"of" extra token and the immediately preceding candidate exists, was
rejected, and has exactly one `digits_modifier` token, the modifier moves
out of the previous candidate's list into the current one's and the
suffix-stripped cardinal is prepended to the normalized text; in every
other case the candidate and the previous candidate are unchanged. -/
theorem c4_day_of_rule (c : CandidateDate) (prevC : Option CandidateDate)
    (prevO : Option CandidateOutcome) :
    (∀ p o, prevC = some p → prevO = some o →
      dayOfRuleFires c prevC prevO = true →
      normalizeDayOf c prevC prevO =
        ({ c with
            props := { c.props with
              digits_modifier := p.props.digits_modifier ++ c.props.digits_modifier },
            normalized_text :=
              stripOrdinalSuffix (p.props.digits_modifier.getLastD "") ++ c.normalized_text },
         some { p with props := { p.props with digits_modifier := [] } })) ∧
    (dayOfRuleFires c prevC prevO = false →
      normalizeDayOf c prevC prevO = (c, prevC)) := by
  constructor
  · intro p o hp ho hf
    subst hp; subst ho
    unfold dayOfRuleFires at hf
    simp only [Bool.and_eq_true, Bool.not_eq_true'] at hf
    obtain ⟨hofs, hacc, hlen⟩ := hf
    rw [decide_eq_true_eq] at hlen
    obtain ⟨m, hm⟩ : ∃ m, p.props.digits_modifier = [m] := by
      cases hmm : p.props.digits_modifier with
      | nil => rw [hmm] at hlen; simp at hlen
      | cons a t =>
        rw [hmm] at hlen
        simp only [List.length_cons, Nat.add_left_eq_self] at hlen
        rw [List.length_eq_zero] at hlen
        exact ⟨a, by rw [hlen]⟩
    have hne : c.props.extra_tokens.isEmpty = false := by
      cases hext : c.props.extra_tokens with
      | nil => rw [hext] at hofs; simp at hofs
      | cons a t => simp
    simp [normalizeDayOf, hne, hofs, hacc, hm]
  · intro hf
    unfold dayOfRuleFires at hf
    by_cases hne : c.props.extra_tokens.isEmpty = true
    · simp [normalizeDayOf, hne]
    · rw [Bool.not_eq_true] at hne
      by_cases hofs : (c.props.extra_tokens.any fun tok => decide (pyLower tok = "of")) = true
      · rw [hofs] at hf
        simp only [Bool.true_and] at hf
        cases prevC with
        | none => cases prevO <;> simp [normalizeDayOf, hne, hofs]
        | some p =>
          cases prevO with
          | none => simp [normalizeDayOf, hne, hofs]
          | some o =>
            simp only [Bool.and_eq_true, Bool.not_eq_true'] at hf
            cases hacc : o.accepted with
            | true => simp [normalizeDayOf, hne, hofs, hacc]
            | false =>
              rw [hacc] at hf
              have hl : p.props.digits_modifier.length ≠ 1 := by
                intro hl
                rw [hl] at hf
                simp at hf
              simp [normalizeDayOf, hne, hofs, hacc, hl]
      · rw [Bool.not_eq_true] at hofs
        simp [normalizeDayOf, hne, hofs]

/-- Witness for C4: the rule fires on the `the 1st` / `of June 2017`
fixture pair. -/
theorem c4_day_of_rule_witness :
    dayOfRuleFires curOfCand (some prevOfCand) (some prevOfOutcome) = true ∧
    normalizeDayOf curOfCand (some prevOfCand) (some prevOfOutcome) =
      ({ curOfCand with
          props := { curOfCand.props with
            digits_modifier :=
              prevOfCand.props.digits_modifier ++ curOfCand.props.digits_modifier },
          normalized_text :=
            stripOrdinalSuffix (prevOfCand.props.digits_modifier.getLastD "") ++
              curOfCand.normalized_text },
       some { prevOfCand with
          props := { prevOfCand.props with digits_modifier := [] } }) :=
  ⟨by decide,
   (c4_day_of_rule curOfCand (some prevOfCand) (some prevOfOutcome)).1
     prevOfCand prevOfOutcome rfl rfl (by decide)⟩

/-- C6: when none of the eight earlier rejection rules fires,
`_reject_impossible_formats` returns `fraction_like_number` exactly when
the delimiter list counts exactly one `/` or exactly one `-` and the
candidate has more than two numeral tokens. -/
theorem c6_fraction_like_number (c : CandidateDate)
    (h1 : ¬ 1 < c.props.months.length)
    (h2 : ¬ (c.props.months.length = 1 ∧ ¬c.props.extra_tokens = [] ∧
      strContains c.normalized_text.data
        ((c.props.months.head?.getD "").data ++ (c.props.extra_tokens.getLast?.getD "").data) = true))
    (h3 : ¬ (0 < c.props.digits_modifier.length ∧ c.props.digits = []))
    (h4 : ¬ (0 < c.props.days.length ∧ c.props.digits = []))
    (h5 : ¬ (c.props.months = [] ∧ c.props.digits_modifier = [] ∧
      c.props.digits.length ≤ 1))
    (h6 : ¬ matchTwoBareNumbers c.normalized_text.data = true)
    (h7 : ¬ (¬List.count "." c.props.delimiters = 0 ∧ c.props.months = [] ∧
      matchNumericDate c.normalized_text.data = false))
    (h8 : ¬ searchNumberDotWord c.normalized_text.data = true) :
    rejectImpossibleFormats c = some "fraction_like_number" ↔
      (c.props.delimiters.count "/" = 1 ∨ c.props.delimiters.count "-" = 1) ∧
        2 < c.props.digits.length := by
  by_cases hc : (c.props.delimiters.count "/" = 1 ∨ c.props.delimiters.count "-" = 1) ∧
      2 < c.props.digits.length
  · simp [rejectImpossibleFormats, hc]
    rw [if_neg h1, if_neg h2, if_neg h3, if_neg h4, if_neg h5, if_neg h6, if_neg h7,
      if_neg h8]
  · simp [rejectImpossibleFormats, hc]
    rw [if_neg h1, if_neg h2, if_neg h3, if_neg h4, if_neg h5, if_neg h6, if_neg h7,
      if_neg h8]
    split
    · simp
    · split
      · simp
      · split <;> simp

/-- Witness for C6 at the `12/13/14` fixture. -/
theorem c6_fraction_like_number_witness :
    rejectImpossibleFormats fractionCand = some "fraction_like_number" ∧
      ((fractionCand.props.delimiters.count "/" = 1 ∨
          fractionCand.props.delimiters.count "-" = 1) ∧
        2 < fractionCand.props.digits.length) :=
  ⟨(c6_fraction_like_number fractionCand (by decide) (by decide) (by decide) (by decide)
      (by decide) (by decide) (by decide) (by decide)).mpr (by decide),
   by decide⟩

/-- The `month` entry of the populated date fields is the parsed month. -/
theorem dvs_lookup_month (d : PyDate) : (dateValues d).lookup "month" = some (pyMonth d) := by
  cases d <;> rfl

/-- C3: `check_date_parts_are_in_date` returns false exactly when the
parsed month falls outside the extracted month values, or some populated
field among year/month/day stays unmatched against the expected values
(year also matchable by its two-digit short form when above 1000) while
the expected-value set retains an unmatched numeric leftover.  (The
`pyMonth d` nonzero hypothesis reflects that Python date objects always
have `1 <= month <= 12`.) -/
theorem c3_validator_decision (d : PyDate) (props : TokenProps)
    (monthLookup : String → Option Nat) (hm : pyMonth d ≠ 0) :
    checkDatePartsAreInDate d props monthLookup = false ↔
      claimMonthMismatch d props monthLookup ∨
        (claimCoreUnmatched d props monthLookup ∧ claimLeftovers d props monthLookup) := by
  by_cases hA : candMonthValues props monthLookup ≠ [] ∧
      pyMonth d ∉ candMonthValues props monthLookup
  · simp [checkDatePartsAreInDate, dvs_lookup_month, claimMonthMismatch, hA.1, hA.2, hm]
  · have hA2 : candMonthValues props monthLookup = [] ∨
        pyMonth d ∈ candMonthValues props monthLookup := by
      by_cases hMe : candMonthValues props monthLookup = []
      · exact Or.inl hMe
      · right
        by_contra hmem
        exact hA ⟨hMe, hmem⟩
    simp [checkDatePartsAreInDate, dvs_lookup_month, claimMonthMismatch,
      claimCoreUnmatched, claimLeftovers, hm, hA, hA2]
    intro x hx hnotin hnomatch
    constructor
    · rintro ⟨a, b, hab, p, q⟩
      exact ⟨a, b, hab, q, p⟩
    · rintro ⟨a, b, hab, p, q⟩
      exact ⟨a, b, hab, q, p⟩

/-- Witness for C3: the spec's June example validates, the July variant is
a month mismatch. -/
theorem c3_validator_decision_witness :
    checkDatePartsAreInDate (PyDate.date 2017 6 1) juneProps monthByName = true ∧
    checkDatePartsAreInDate (PyDate.date 2017 6 1) julyProps monthByName = false ∧
    pyMonth (PyDate.date 2017 6 1) ≠ 0 ∧
    (checkDatePartsAreInDate (PyDate.date 2017 6 1) julyProps monthByName = false ↔
      claimMonthMismatch (PyDate.date 2017 6 1) julyProps monthByName ∨
        (claimCoreUnmatched (PyDate.date 2017 6 1) julyProps monthByName ∧
          claimLeftovers (PyDate.date 2017 6 1) julyProps monthByName)) :=
  ⟨by decide, by decide, by decide,
   c3_validator_decision (PyDate.date 2017 6 1) julyProps monthByName (by decide)⟩

theorem list_findSome?_flatMap {α β γ : Type} (l : List α) (g : α → List β)
    (f : β → Option γ) :
    (l.flatMap g).findSome? f = l.findSome? fun a => (g a).findSome? f := by
  induction l with
  | nil => rfl
  | cons a t ih =>
    simp only [List.flatMap_cons, List.findSome?_append, ih]
    cases h : (g a).findSome? f <;> simp [List.findSome?_cons, h, Option.or]

theorem list_findSome?_map {α β γ : Type} (l : List α) (g : α → β) (f : β → Option γ) :
    (l.map g).findSome? f = l.findSome? fun a => f (g a) := by
  induction l with
  | nil => rfl
  | cons a t ih => simp [List.findSome?_cons, ih]

theorem windowedParse_eq_attempts (parse : String → Except PyErr (Option PyDate))
    (base : String) :
    windowedParse parse base = (attemptStrings base).findSome? (tryParseDateString parse) := by
  unfold windowedParse attemptStrings
  rw [list_findSome?_flatMap]
  exact congrArg (fun F => List.findSome? F (List.range (pySplit base).length))
    (funext fun cutter => (list_findSome?_map _ _ _).symm)

theorem all_error_findSome?_none (parse : String → Except PyErr (Option PyDate))
    (l : List String) (h : ∀ s ∈ l, ∃ e, parse s = Except.error e) :
    l.findSome? (tryParseDateString parse) = none := by
  induction l with
  | nil => rfl
  | cons s t ih =>
    obtain ⟨e, he⟩ := h s (by simp)
    have hs : tryParseDateString parse s = none := by
      unfold tryParseDateString
      rw [he]
    simp only [List.findSome?_cons, hs]
    exact ih fun x hx => h x (by simp [hx])

/-- C1 counterexample: a collaborator that raises `TypeError` on every
windowed-parse attempt yields a `parse_failure` rejection, not
`type_error` — the inner broad exception handler absorbs the `TypeError`
before the outer `except TypeError` can see it. -/
theorem c1_counterexample :
    (∃ s ∈ attemptStrings twoTokenCand.normalized_text,
        parseAlwaysTypeError s = Except.error PyErr.typeError) ∧
    (parseCandidate parseAlwaysTypeError twoTokenCand).reason = some "parse_failure" ∧
    ¬(parseCandidate parseAlwaysTypeError twoTokenCand).reason = some "type_error" :=
  ⟨⟨"x y", by decide, rfl⟩, by decide, by decide⟩

/-- C1 (amended): every collaborator exception raised during the
windowed-parse attempts — `TypeError` included — is caught by the inner
broad handler and treated as no parse for that variant; when every
attempt raises, the outcome is a rejection with reason `parse_failure`,
and no collaborator exception propagates (the embedded `_parse_candidate`
is a total function of the collaborator's results). -/
theorem c1_typeerror_downgraded (parse : String → Except PyErr (Option PyDate))
    (c : CandidateDate)
    (h : ∀ s ∈ attemptStrings c.normalized_text, ∃ e, parse s = Except.error e) :
    parseCandidate parse c =
      { candidate := c, accepted := false, reason := some "parse_failure" } := by
  have hw : windowedParse parse c.normalized_text = none := by
    rw [windowedParse_eq_attempts]
    exact all_error_findSome?_none parse _ h
  unfold parseCandidate
  rw [hw]

theorem c1_typeerror_downgraded_witness :
    (∀ s ∈ attemptStrings twoTokenCand.normalized_text,
        ∃ e, parseAlwaysTypeError s = Except.error e) ∧
    parseCandidate parseAlwaysTypeError twoTokenCand =
      { candidate := twoTokenCand, accepted := false, reason := some "parse_failure" } :=
  ⟨fun _ _ => ⟨.typeError, rfl⟩,
   c1_typeerror_downgraded parseAlwaysTypeError twoTokenCand fun _ _ => ⟨.typeError, rfl⟩⟩

/-- C2 counterexample: with two whitespace tokens and a collaborator that
never parses, the call trace invokes the collaborator twice (not once) on
the untrimmed text at cutter 0. -/
theorem c2_counterexample :
    callTrace parseNoneAlways "x y" = ["x y", "x y", "x", "y"] ∧
    (callTrace parseNoneAlways "x y").count "x y" = 2 ∧
    ¬(callTrace parseNoneAlways "x y").count "x y" = 1 := by
  decide

/-- C2 (amended): the windowed parser scans, for cutter ascending from 0,
the untrimmed text (twice at cutter 0, the second attempt reached only if
the first yields no parse), then the drop-last-cutter-tokens variant
before the drop-first-cutter-tokens variant, and returns the first
successful parse in that order, treating collaborator exceptions as no
parse. -/
theorem c2_scan_order (parse : String → Except PyErr (Option PyDate)) (base : String) :
    attemptStrings base = claimScanOrderAmended base ∧
    windowedParse parse base =
      (claimScanOrderAmended base).findSome? (tryParseDateString parse) := by
  have hpt : ∀ cutter,
      (([0, 1] : List Nat).map fun direction =>
        workingStringFor base (pySplit base) cutter direction) =
      (if cutter = 0 then [base, base]
       else [joinSpace ((pySplit base).take ((pySplit base).length - cutter)),
             joinSpace ((pySplit base).drop cutter)]) := by
    intro cutter
    by_cases h0 : cutter = 0
    · subst h0
      simp [workingStringFor]
    · have hpos : 0 < cutter := Nat.pos_of_ne_zero h0
      simp [workingStringFor, h0, hpos]
  have hatt : attemptStrings base = claimScanOrderAmended base := by
    unfold attemptStrings claimScanOrderAmended
    exact congrArg (List.flatMap (List.range (pySplit base).length)) (funext hpt)
  exact ⟨hatt, by rw [windowedParse_eq_attempts, hatt]⟩

/-- C9: when the windowed parse succeeds with a date-time value and the
validation guards pass (token validation and the `isoformat` timezone
guard), a midnight value (hour and minute both zero) is stored as the
plain calendar date, any other date-time value is stored unchanged, and
the outcome is accepted. -/
theorem c9_midnight_conversion (parse : String → Except PyErr (Option PyDate))
    (c : CandidateDate) (y mo dy h mi : Nat) (ok : Bool)
    (hparse : windowedParse parse c.normalized_text =
      some (.datetime y mo dy h mi ok))
    (hcheck : checkDatePartsAreInDate (.datetime y mo dy h mi ok) c.props monthByName = true)
    (hiso : ok = true) :
    (parseCandidate parse c).accepted = true ∧
    (parseCandidate parse c).date =
      some (if h = 0 ∧ mi = 0 then PyDate.date y mo dy
            else PyDate.datetime y mo dy h mi ok) := by
  subst hiso
  unfold parseCandidate
  rw [hparse]
  by_cases hm : h = 0 ∧ mi = 0
  · obtain ⟨h0, m0⟩ := hm
    subst h0
    subst m0
    simp [hcheck]
  · simp [hcheck, hm]

/-- Witness for C9 at the June fixture (midnight date-time). -/
theorem c9_midnight_conversion_witness :
    windowedParse parseJune juneCand.normalized_text =
      some (.datetime 2017 6 1 0 0 true) ∧
    checkDatePartsAreInDate (.datetime 2017 6 1 0 0 true) juneCand.props monthByName = true ∧
    ((parseCandidate parseJune juneCand).accepted = true ∧
      (parseCandidate parseJune juneCand).date =
        some (if 0 = 0 ∧ 0 = 0 then PyDate.date 2017 6 1
              else PyDate.datetime 2017 6 1 0 0 true)) :=
  ⟨by decide, by decide,
   c9_midnight_conversion parseJune juneCand 2017 6 1 0 0 true (by decide) (by decide) rfl⟩

theorem parseCandidate_inv (parse : String → Except PyErr (Option PyDate))
    (c : CandidateDate) : outcomeInv (parseCandidate parse c) := by
  unfold outcomeInv parseCandidate
  cases hw : windowedParse parse c.normalized_text with
  | none => simp
  | some d =>
    dsimp only
    cases d with
    | date y m dd =>
      dsimp only
      split <;> simp
    | datetime y m dd h mi ok =>
      dsimp only
      split
      · simp
      · split
        · simp
        · split <;> simp

theorem evaluateCandidate_inv (parse : String → Except PyErr (Option PyDate))
    (c0 : CandidateDate) (prev : Option CandidateDate)
    (prevOut : Option CandidateOutcome) :
    outcomeInv (evaluateCandidate parse c0 prev prevOut).2 := by
  dsimp only [evaluateCandidate]
  split
  · simp [outcomeInv]
  · split
    · simp [outcomeInv]
    · exact parseCandidate_inv parse _

theorem iter_aux_inv (parse : String → Except PyErr (Option PyDate))
    (pds : List (String × (Nat × Nat) × TokenProps)) :
    ∀ idx prev prevOut o, o ∈ iterCandidateEvaluationsAux parse pds idx prev prevOut →
      outcomeInv o := by
  induction pds with
  | nil =>
    intro idx prev prevOut o ho
    simp [iterCandidateEvaluationsAux] at ho
  | cons hd tl ih =>
    intro idx prev prevOut o ho
    obtain ⟨rawText, span, props⟩ := hd
    simp only [iterCandidateEvaluationsAux, List.mem_cons] at ho
    rcases ho with h | h
    · subst h
      exact evaluateCandidate_inv parse _ _ _
    · exact ih _ _ _ _ h

/-- C8: every outcome produced by the candidate-evaluation pipeline
satisfies the invariant: accepted outcomes carry a date, rejected
outcomes carry a reason. -/
theorem c8_outcome_invariant (parse : String → Except PyErr (Option PyDate))
    (pds : List (String × (Nat × Nat) × TokenProps)) (o : CandidateOutcome)
    (ho : o ∈ iterCandidateEvaluations parse pds) :
    (o.accepted = true → o.date.isSome = true) ∧
      (o.accepted = false → o.reason.isSome = true) :=
  iter_aux_inv parse pds 0 none none o ho

/-- Witness for C8: the rejected outcome of the empty-text fixture. -/
theorem c8_outcome_invariant_witness :
    emptyOutcome ∈ iterCandidateEvaluations parseNoneAlways emptyPossible ∧
    ((emptyOutcome.accepted = true → emptyOutcome.date.isSome = true) ∧
      (emptyOutcome.accepted = false → emptyOutcome.reason.isSome = true)) :=
  ⟨by decide,
   c8_outcome_invariant parseNoneAlways emptyPossible emptyOutcome (by decide)⟩

/-- C7: threshold monotonicity of `get_date_annotations` — for fixed
text, collaborator, scorer and tokenizer output, every annotation yielded
at a threshold is also yielded at any lower threshold. -/
theorem c7_threshold_monotonic (parse : String → Except PyErr (Option PyDate))
    (scoreFn : String → Nat → Nat → ℚ) (text : String)
    (pds : List (String × (Nat × Nat) × TokenProps)) (t1 t2 : ℚ)
    (hle : t1 ≤ t2) (a : DateAnnot)
    (ha : a ∈ getDateAnns parse scoreFn text pds t2) :
    a ∈ getDateAnns parse scoreFn text pds t1 := by
  unfold getDateAnns at ha ⊢
  rw [List.mem_filterMap] at ha ⊢
  obtain ⟨o, ho, hfa⟩ := ha
  refine ⟨o, ho, ?_⟩
  cases hacc : o.accepted <;> rw [hacc] at hfa
  · dsimp only at hfa
    exact absurd hfa (by simp)
  · cases hdate : o.date <;> rw [hdate] at hfa
    · exact absurd hfa (by simp)
    · dsimp only at hfa ⊢
      by_cases hs : t2 ≤ scoreFn text o.candidate.span.1 o.candidate.span.2
      · rw [if_pos hs] at hfa
        rw [if_pos (le_trans hle hs)]
        exact hfa
      · rw [if_neg hs] at hfa
        exact absurd hfa (by simp)

/-- Witness for C7: the June annotation survives lowering the threshold
from 1 to 0. -/
theorem c7_threshold_monotonic_witness :
    (0 : ℚ) ≤ 1 ∧
    juneAnnot ∈ getDateAnns parseJune scoreOne "June 1, 2017" junePossible 1 ∧
    juneAnnot ∈ getDateAnns parseJune scoreOne "June 1, 2017" junePossible 0 :=
  ⟨by norm_num, by decide,
   c7_threshold_monotonic parseJune scoreOne "June 1, 2017" junePossible 0 1
     (by norm_num) juneAnnot (by decide)⟩

theorem stepFrame_refl (n0 : Nat) (st : Store) : StepFrame n0 st st :=
  ⟨⟨fun _ _ => rfl, fun _ _ => rfl⟩, Nat.le_refl _⟩

theorem stepFrame_trans {n0 : Nat} {s1 s2 s3 : Store}
    (h1 : StepFrame n0 s1 s2) (h2 : StepFrame n0 s2 s3) : StepFrame n0 s1 s3 :=
  ⟨⟨fun r hr => (h2.1.1 r hr).trans (h1.1.1 r hr),
    fun r hr => (h2.1.2 r hr).trans (h1.1.2 r hr)⟩,
   Nat.le_trans h1.2 h2.2⟩

theorem allocList_frame (st : Store) (xs : List String) (n0 : Nat)
    (h : n0 ≤ st.fresh) : StepFrame n0 st (allocList st xs).2 := by
  refine ⟨⟨fun r hr => ?_, fun r hr => rfl⟩, ?_⟩
  · have : r ≠ st.fresh := by omega
    simp [allocList, this]
  · simp [allocList]

theorem allocDict_frame (st : Store) (d : PropsDict) (n0 : Nat)
    (h : n0 ≤ st.fresh) : StepFrame n0 st (allocDict st d).2 := by
  refine ⟨⟨fun r hr => rfl, fun r hr => ?_⟩, ?_⟩
  · have : r ≠ st.fresh := by omega
    simp [allocDict, this]
  · simp [allocDict]

theorem copyVal_frame (st : Store) (v : PropVal) (n0 : Nat)
    (h : n0 ≤ st.fresh) : StepFrame n0 st (copyVal st v).2 := by
  cases v with
  | listRef r => exact allocList_frame st _ n0 h
  | tup xs => exact allocList_frame st _ n0 h
  | scalar s => exact stepFrame_refl n0 st

theorem copyEntries_frame (entries : PropsDict) :
    ∀ (st : Store) (n0 : Nat), n0 ≤ st.fresh →
      StepFrame n0 st (copyEntries st entries).2 := by
  induction entries with
  | nil => intro st n0 h; exact stepFrame_refl n0 st
  | cons kv rest ih =>
    intro st n0 h
    have h1 := copyVal_frame st kv.2 n0 h
    have h2 := ih (copyVal st kv.2).2 n0 (Nat.le_trans h h1.2)
    have heq : (copyEntries st (kv :: rest)).2 =
        (copyEntries (copyVal st kv.2).2 rest).2 := by
      cases kv
      simp [copyEntries]
    rw [heq]
    exact stepFrame_trans h1 h2

theorem copyDatePropsH_frame (st : Store) (srcRef : Nat) (n0 : Nat)
    (h : n0 ≤ st.fresh) :
    StepFrame n0 st (copyDatePropsH st srcRef).2 ∧
      n0 ≤ (copyDatePropsH st srcRef).1 := by
  have h1 := copyEntries_frame (st.dictHeap srcRef) st n0 h
  have h2 := allocDict_frame (copyEntries st (st.dictHeap srcRef)).2
    (copyEntries st (st.dictHeap srcRef)).1 n0 (Nat.le_trans h h1.2)
  constructor
  · exact stepFrame_trans h1 h2
  · show n0 ≤ (copyEntries st (st.dictHeap srcRef)).2.fresh
    exact Nat.le_trans h h1.2

theorem setPropList_frame (st : Store) (dictRef : Nat) (key : String)
    (xs : List String) (n0 : Nat) (h : n0 ≤ st.fresh) (hd : n0 ≤ dictRef) :
    StepFrame n0 st (setPropList st dictRef key xs) := by
  have ha := allocList_frame st xs n0 h
  refine ⟨⟨fun r hr => ha.1.1 r hr, fun r hr => ?_⟩, ha.2⟩
  have : r ≠ dictRef := by omega
  simp only [setPropList, this, if_false]
  exact ha.1.2 r hr

theorem hNormalizeDayOf_frame (st : Store) (c : HCandidate)
    (prev : Option HCandidate) (prevAcc : Option Bool) (n0 : Nat)
    (h : n0 ≤ st.fresh) (hc : n0 ≤ c.propsRef)
    (hp : ∀ p, prev = some p → n0 ≤ p.propsRef) :
    StepFrame n0 st (hNormalizeDayOf st c prev prevAcc).1 ∧
      (hNormalizeDayOf st c prev prevAcc).2.propsRef = c.propsRef := by
  cases prev with
  | none =>
    unfold hNormalizeDayOf
    dsimp only
    split
    · exact ⟨stepFrame_refl _ _, rfl⟩
    · split
      · exact ⟨stepFrame_refl _ _, rfl⟩
      · cases prevAcc <;> exact ⟨stepFrame_refl _ _, rfl⟩
  | some p =>
    cases prevAcc with
    | none =>
      unfold hNormalizeDayOf
      dsimp only
      split
      · exact ⟨stepFrame_refl _ _, rfl⟩
      · split
        · exact ⟨stepFrame_refl _ _, rfl⟩
        · exact ⟨stepFrame_refl _ _, rfl⟩
    | some acc =>
      unfold hNormalizeDayOf
      dsimp only
      split
      · exact ⟨stepFrame_refl _ _, rfl⟩
      · split
        · exact ⟨stepFrame_refl _ _, rfl⟩
        · split
          · exact ⟨stepFrame_refl _ _, rfl⟩
          · split
            · exact ⟨stepFrame_refl _ _, rfl⟩
            · have hp' : n0 ≤ p.propsRef := hp p rfl
              have h1 := setPropList_frame st c.propsRef "digits_modifier"
                (getPropList st p.propsRef "digits_modifier" ++
                  getPropList st c.propsRef "digits_modifier") n0 h hc
              have h2 := setPropList_frame
                (setPropList st c.propsRef "digits_modifier"
                  (getPropList st p.propsRef "digits_modifier" ++
                    getPropList st c.propsRef "digits_modifier"))
                p.propsRef "digits_modifier"
                (getPropList st p.propsRef "digits_modifier").dropLast n0
                (Nat.le_trans h h1.2) hp'
              exact ⟨stepFrame_trans h1 h2, rfl⟩

theorem hNormalizeTokens_frame (st : Store) (c : HCandidate) (n0 : Nat)
    (h : n0 ≤ st.fresh) (hc : n0 ≤ c.propsRef) :
    StepFrame n0 st (hNormalizeTokens st c).1 ∧
      (hNormalizeTokens st c).2.propsRef = c.propsRef := by
  unfold hNormalizeTokens
  exact ⟨setPropList_frame st c.propsRef "extra_tokens" [] n0 h hc, rfl⟩

theorem hEvaluateCandidate_frame (parse : String → Except PyErr (Option PyDate))
    (st : Store) (c0 : HCandidate) (prev : Option HCandidate)
    (prevAcc : Option Bool) (n0 : Nat)
    (h : n0 ≤ st.fresh) (hc : n0 ≤ c0.propsRef)
    (hp : ∀ p, prev = some p → n0 ≤ p.propsRef) :
    StepFrame n0 st (hEvaluateCandidate parse st c0 prev prevAcc).1 ∧
      n0 ≤ (hEvaluateCandidate parse st c0 prev prevAcc).2.1.propsRef := by
  obtain ⟨hn, hr⟩ := hNormalizeDayOf_frame st c0 prev prevAcc n0 h hc hp
  unfold hEvaluateCandidate
  dsimp only
  split
  · exact ⟨hn, by rw [hr]; exact hc⟩
  · obtain ⟨hm, hr2⟩ := hNormalizeTokens_frame (hNormalizeDayOf st c0 prev prevAcc).1
      (hNormalizeDayOf st c0 prev prevAcc).2 n0 (Nat.le_trans h hn.2) (by rw [hr]; exact hc)
    split
    · exact ⟨stepFrame_trans hn hm, by rw [hr2, hr]; exact hc⟩
    · exact ⟨stepFrame_trans hn hm, by rw [hr2, hr]; exact hc⟩

theorem hPipelineAux_frame (parse : String → Except PyErr (Option PyDate))
    (pds : List (String × (Nat × Nat) × Nat)) :
    ∀ (idx : Nat) (st : Store) (prev : Option HCandidate) (prevAcc : Option Bool)
      (n0 : Nat), n0 ≤ st.fresh → (∀ p, prev = some p → n0 ≤ p.propsRef) →
      StepFrame n0 st (hPipelineAux parse pds idx st prev prevAcc) := by
  induction pds with
  | nil =>
    intro idx st prev prevAcc n0 h hp
    exact stepFrame_refl _ _
  | cons hd tl ih =>
    intro idx st prev prevAcc n0 h hp
    obtain ⟨rawText, span, srcRef⟩ := hd
    obtain ⟨hcp, hcpref⟩ := copyDatePropsH_frame st srcRef n0 h
    obtain ⟨hev, hevref⟩ := hEvaluateCandidate_frame parse (copyDatePropsH st srcRef).2
      { raw_text := rawText, span := span, propsRef := (copyDatePropsH st srcRef).1,
        index := idx, normalized_text := rawText } prev prevAcc n0
      (Nat.le_trans h hcp.2) hcpref hp
    have hrec := ih (idx + 1)
      (hEvaluateCandidate parse (copyDatePropsH st srcRef).2
        { raw_text := rawText, span := span, propsRef := (copyDatePropsH st srcRef).1,
          index := idx, normalized_text := rawText } prev prevAcc).1
      (some (hEvaluateCandidate parse (copyDatePropsH st srcRef).2
        { raw_text := rawText, span := span, propsRef := (copyDatePropsH st srcRef).1,
          index := idx, normalized_text := rawText } prev prevAcc).2.1)
      (some (hEvaluateCandidate parse (copyDatePropsH st srcRef).2
        { raw_text := rawText, span := span, propsRef := (copyDatePropsH st srcRef).1,
          index := idx, normalized_text := rawText } prev prevAcc).2.2.accepted)
      n0 (Nat.le_trans (Nat.le_trans h hcp.2) hev.2)
      (by
        intro p hp'
        injection hp' with e
        rw [← e]
        exact hevref)
    dsimp only [hPipelineAux]
    exact stepFrame_trans (stepFrame_trans hcp hev) hrec

theorem getPropList_eq_matVal (st : Store) (dictRef : Nat) (key : String) :
    getPropList st dictRef key = matVal st ((st.dictHeap dictRef).lookup key) := by
  unfold getPropList matVal
  rfl


theorem matVal_stable {st1 st2 : Store} (n0 : Nat)
    (hpres : StepFrame n0 st1 st2) (v : Option PropVal)
    (hv : ∀ r, v = some (PropVal.listRef r) → r < n0) :
    matVal st2 v = matVal st1 v := by
  cases v with
  | none => rfl
  | some pv =>
    cases pv with
    | listRef r => exact hpres.1.1 r (hv r rfl)
    | tup xs => rfl
    | scalar s => rfl

theorem lookup_listRef_bound (l : PropsDict) (n : Nat) (key : String) :
    (∀ kv ∈ l, valRefBelow kv.2 n = true) →
    ∀ r, l.lookup key = some (PropVal.listRef r) → r < n := by
  induction l with
  | nil => intro hv r h; simp [List.lookup] at h
  | cons kv rest ih =>
    intro hv r h
    obtain ⟨k, v⟩ := kv
    simp only [List.lookup] at h
    cases hk : (key == k) with
    | false =>
      rw [hk] at h
      exact ih (fun kv hkv => hv kv (by simp [hkv])) r h
    | true =>
      rw [hk] at h
      injection h with e
      subst e
      have := hv (k, PropVal.listRef r) (by simp)
      simpa [valRefBelow] using this

theorem copyEntries_mat (entries : PropsDict) :
    ∀ (st : Store) (key : String),
      (∀ kv ∈ entries, valRefBelow kv.2 st.fresh = true) →
      matVal (copyEntries st entries).2 ((copyEntries st entries).1.lookup key) =
        matVal st (entries.lookup key) := by
  induction entries with
  | nil => intro st key hv; rfl
  | cons kv rest ih =>
    intro st key hv
    obtain ⟨k, v⟩ := kv
    dsimp only [copyEntries]
    cases hk : (key == k) with
    | true =>
      cases v with
      | listRef r =>
        dsimp only [copyVal]
        simp only [List.lookup, hk]
        have hfr := (copyEntries_frame rest (allocList st (st.listHeap r)).2
          (allocList st (st.listHeap r)).2.fresh (Nat.le_refl _)).1.1 st.fresh
          (by simp [allocList])
        dsimp only [matVal]
        have hone : (allocList st (st.listHeap r)).1 = st.fresh := rfl
        rw [hone, hfr]
        simp [allocList]
      | tup xs =>
        dsimp only [copyVal]
        simp only [List.lookup, hk]
        have hfr := (copyEntries_frame rest (allocList st xs).2
          (allocList st xs).2.fresh (Nat.le_refl _)).1.1 st.fresh
          (by simp [allocList])
        dsimp only [matVal]
        have hone : (allocList st xs).1 = st.fresh := rfl
        rw [hone, hfr]
        simp [allocList]
      | scalar s =>
        dsimp only [copyVal]
        simp only [List.lookup, hk]
        rfl
    | false =>
      simp only [List.lookup, hk]
      have hcv := copyVal_frame st v st.fresh (Nat.le_refl _)
      have hrest : ∀ kv ∈ rest, valRefBelow kv.2 (copyVal st v).2.fresh = true := by
        intro kv hkv
        have h1 := hv kv (by simp [hkv])
        cases hkv2 : kv.2 with
        | listRef r =>
          rw [hkv2] at h1
          simp only [valRefBelow, decide_eq_true_eq] at h1 ⊢
          exact Nat.lt_of_lt_of_le h1 hcv.2
        | tup xs => simp [valRefBelow]
        | scalar s => simp [valRefBelow]
      rw [ih (copyVal st v).2 key hrest]
      refine matVal_stable st.fresh hcv _ ?_
      intro r hr
      exact lookup_listRef_bound rest st.fresh key
        (fun kv hkv => hv kv (by simp [hkv])) r hr

theorem getPropList_copy (st : Store) (srcRef : Nat)
    (hv : validDictRef st srcRef = true) (key : String) :
    getPropList (copyDatePropsH st srcRef).2 (copyDatePropsH st srcRef).1 key =
      getPropList st srcRef key := by
  have hv' : ∀ kv ∈ st.dictHeap srcRef, valRefBelow kv.2 st.fresh = true := by
    simpa [validDictRef, List.all_eq_true] using hv
  rw [getPropList_eq_matVal, getPropList_eq_matVal]
  have hdict : (copyDatePropsH st srcRef).2.dictHeap (copyDatePropsH st srcRef).1 =
      (copyEntries st (st.dictHeap srcRef)).1 := by
    unfold copyDatePropsH
    dsimp only [allocDict]
    simp
  rw [hdict]
  have hlist : ∀ v, matVal (copyDatePropsH st srcRef).2 v =
      matVal (copyEntries st (st.dictHeap srcRef)).2 v := by
    intro v
    cases v with
    | none => rfl
    | some pv => cases pv <;> rfl
  rw [hlist]
  exact copyEntries_mat (st.dictHeap srcRef) st key hv'

/-- C10: the pipeline never mutates the token-property structures the
tokenizer returned — every list or dict object allocated before the
pipeline ran is unchanged in both heaps afterwards — and each candidate's
props dict is a faithful copy: reading any property list through the
fresh dict produced by `_copy_date_props` yields the same contents as
reading it through the tokenizer's dict. -/
theorem c10_no_tokenizer_mutation (parse : String → Except PyErr (Option PyDate))
    (pds : List (String × (Nat × Nat) × Nat)) (st : Store) :
    (∀ r, r < st.fresh →
      (hPipeline parse pds st).listHeap r = st.listHeap r ∧
        (hPipeline parse pds st).dictHeap r = st.dictHeap r) ∧
    (∀ srcRef, validDictRef st srcRef = true →
      readProps (copyDatePropsH st srcRef).2 (copyDatePropsH st srcRef).1 =
        readProps st srcRef) := by
  constructor
  · intro r hr
    have hf := hPipelineAux_frame parse pds 0 st none none st.fresh (Nat.le_refl _)
      (by intro p hp; cases hp)
    exact ⟨hf.1.1 r hr, hf.1.2 r hr⟩
  · intro srcRef hv
    unfold readProps
    simp only [getPropList_copy st srcRef hv]

/-- Witness for C10 at a one-candidate store. -/
theorem c10_no_tokenizer_mutation_witness :
    0 < heapStore0.fresh ∧ validDictRef heapStore0 0 = true ∧
    ((hPipeline parseNoneAlways heapPds heapStore0).listHeap 0 = heapStore0.listHeap 0 ∧
      (hPipeline parseNoneAlways heapPds heapStore0).dictHeap 0 = heapStore0.dictHeap 0) ∧
    readProps (copyDatePropsH heapStore0 0).2 (copyDatePropsH heapStore0 0).1 =
      readProps heapStore0 0 :=
  ⟨by decide, by decide,
   (c10_no_tokenizer_mutation parseNoneAlways heapPds heapStore0).1 0 (by decide),
   (c10_no_tokenizer_mutation parseNoneAlways heapPds heapStore0).2 0 (by decide)⟩
